import Mathlib

/-!
Verification development for the libgroove encoder (`src/encoder.c`).

The pure negotiation routines (`closest_supported_sample_fmt`,
`closest_supported_sample_rate`, `closest_supported_channel_layout`) are
embedded directly.  The stateful session code (`groove_encoder_attach`,
`groove_encoder_detach`, the encode worker, the write-packet callback and
`groove_encoder_get_buffer`) is embedded as explicit state passing over a
`GrooveEncoder` state record; resource releases are made observable as an
explicit event list.  The concurrent queue and the sink live in other files
of the repository that are not part of the sources here, so they are
modelled from the spec (section 4.1 and 6) as noted on each definition.
-/

/-- Absolute difference on C ints, from the source:
`int n = a - b; return n >= 0 ? n : -n;` (`abs_diff`). -/
def absDiff (a b : Int) : Int :=
  if 0 ≤ a - b then a - b else -(a - b)

theorem absDiff_of_le {a b : Int} (h : a ≤ b) : absDiff a b = b - a := by
  unfold absDiff; split <;> omega

theorem absDiff_of_ge {a b : Int} (h : b ≤ a) : absDiff a b = a - b := by
  unfold absDiff; split <;> omega

/-- The loop shared by the three `closest_supported_*` functions of
`encoder.c`: walk the supported list keeping a running `best`; return the
target as soon as it is found in the list (`Sum.inl`, the early
`return target`), otherwise the final `best` (`Sum.inr`).  `key` is the
numeric axis the distances are measured on: the identity for sample rates,
bytes-per-sample for sample formats, the channel count for channel
layouts.  The update condition is literally the C condition
`(best < target && *p > best) || (*p >= target && abs_diff(target,*p) < abs_diff(target,best))`
read through `key`. -/
def negotiate_loop {α : Type} [DecidableEq α] (key : α → Int) (target : α) :
    α → List α → α ⊕ α
  | best, [] => Sum.inr best
  | best, x :: xs =>
    if x = target then Sum.inl target
    else if (key best < key target ∧ key best < key x) ∨
        (key target ≤ key x ∧
          absDiff (key target) (key x) < absDiff (key target) (key best)) then
      negotiate_loop key target x xs
    else
      negotiate_loop key target best xs

theorem negotiate_loop_exact {α : Type} [DecidableEq α] (key : α → Int) (target : α)
    (xs : List α) (h : target ∈ xs) :
    ∀ best, negotiate_loop key target best xs = Sum.inl target := by
  induction xs with
  | nil => cases h
  | cons x xs ih =>
    intro best
    by_cases hx : x = target
    · simp [negotiate_loop, hx]
    · have hmem : target ∈ xs := by
        rcases List.mem_cons.mp h with h1 | h1
        · exact absurd h1.symm hx
        · exact h1
      simp only [negotiate_loop]
      rw [if_neg hx]
      split
      · exact ih hmem x
      · exact ih hmem best

/-- When the target is not in the list, the loop falls through and returns a
`best` that is a member of `best₀ :: xs` and is: the element with the least
key among those whose key is at least the target's, when any such element
exists; otherwise the element with the greatest key. -/
theorem negotiate_loop_closest {α : Type} [DecidableEq α] (key : α → Int) (target : α)
    (xs : List α) (h : target ∉ xs) :
    ∀ best, ∃ b, negotiate_loop key target best xs = Sum.inr b ∧ b ∈ best :: xs ∧
      ((∃ y ∈ best :: xs, key target ≤ key y) →
        key target ≤ key b ∧ ∀ y ∈ best :: xs, key target ≤ key y → key b ≤ key y) ∧
      ((∀ y ∈ best :: xs, key y < key target) → ∀ y ∈ best :: xs, key y ≤ key b) := by
  induction xs with
  | nil =>
    intro best
    refine ⟨best, rfl, by simp, ?_, ?_⟩
    · rintro ⟨y, hy, hky⟩
      simp only [List.mem_singleton] at hy
      subst hy
      refine ⟨hky, ?_⟩
      intro y hy' _
      simp only [List.mem_singleton] at hy'
      subst hy'
      exact le_refl _
    · intro _ y hy
      simp only [List.mem_singleton] at hy
      subst hy
      exact le_refl _
  | cons x xs ih =>
    intro best
    have hx : ¬ x = target := by
      intro hc
      exact h (by simp [hc])
    have hxs : target ∉ xs := fun hc => h (List.mem_cons_of_mem _ hc)
    simp only [negotiate_loop]
    rw [if_neg hx]
    by_cases hcond : (key best < key target ∧ key best < key x) ∨
        (key target ≤ key x ∧
          absDiff (key target) (key x) < absDiff (key target) (key best))
    · rw [if_pos hcond]
      obtain ⟨b, heq, hmem, hge, hlt⟩ := ih hxs x
      refine ⟨b, heq, ?_, ?_, ?_⟩
      · rcases List.mem_cons.mp hmem with hb | hb
        · exact List.mem_cons_of_mem _ (by simp [hb])
        · exact List.mem_cons_of_mem _ (List.mem_cons_of_mem _ hb)
      · rintro ⟨y, hy, hky⟩
        have hwit : ∃ y ∈ x :: xs, key target ≤ key y := by
          rcases List.mem_cons.mp hy with hy1 | hy1
          · subst hy1
            rcases hcond with ⟨h1, _⟩ | ⟨h2, _⟩
            · exact absurd hky (by omega)
            · exact ⟨x, List.mem_cons_self x xs, h2⟩
          · exact ⟨y, hy1, hky⟩
        obtain ⟨hgeb, hminb⟩ := hge hwit
        refine ⟨hgeb, ?_⟩
        intro y hy' hky'
        rcases List.mem_cons.mp hy' with hy1 | hy1
        · subst hy1
          rcases hcond with ⟨h1, _⟩ | ⟨h2, h3⟩
          · omega
          · rw [absDiff_of_le h2, absDiff_of_le hky'] at h3
            have hbx : key b ≤ key x := hminb x (List.mem_cons_self x xs) h2
            omega
        · exact hminb y hy1 hky'
      · intro hall y hy
        have hall' : ∀ y ∈ x :: xs, key y < key target := fun y hy' =>
          hall y (List.mem_cons_of_mem _ hy')
        have hb := hlt hall'
        rcases List.mem_cons.mp hy with hy1 | hy1
        · subst hy1
          rcases hcond with ⟨h1, h2⟩ | ⟨h2, _⟩
          · have hxb : key x ≤ key b := hb x (List.mem_cons_self x xs)
            omega
          · have := hall x (List.mem_cons_of_mem _ (List.mem_cons_self x xs))
            omega
        · exact hb y hy1
    · rw [if_neg hcond]
      obtain ⟨b, heq, hmem, hge, hlt⟩ := ih hxs best
      push_neg at hcond
      obtain ⟨hc1, hc2⟩ := hcond
      refine ⟨b, heq, ?_, ?_, ?_⟩
      · rcases List.mem_cons.mp hmem with hb | hb
        · exact List.mem_cons.mpr (Or.inl hb)
        · exact List.mem_cons_of_mem _ (List.mem_cons_of_mem _ hb)
      · rintro ⟨y, hy, hky⟩
        have hbge : key target ≤ key x → key target ≤ key best := by
          intro hkx
          by_contra hlt'
          push_neg at hlt'
          have := hc1 hlt'
          omega
        have hwit : ∃ y ∈ best :: xs, key target ≤ key y := by
          rcases List.mem_cons.mp hy with hy1 | hy1
          · exact ⟨best, List.mem_cons_self _ _, hy1 ▸ hky⟩
          · rcases List.mem_cons.mp hy1 with hy2 | hy2
            · exact ⟨best, List.mem_cons_self _ _, hbge (hy2 ▸ hky)⟩
            · exact ⟨y, List.mem_cons_of_mem _ hy2, hky⟩
        obtain ⟨hgeb, hminb⟩ := hge hwit
        refine ⟨hgeb, ?_⟩
        intro y hy' hky'
        rcases List.mem_cons.mp hy' with hy1 | hy1
        · rw [hy1]
          exact hminb best (List.mem_cons_self _ _) (hy1 ▸ hky')
        · rcases List.mem_cons.mp hy1 with hy2 | hy2
          · rw [hy2]
            rw [hy2] at hky'
            have hbt : key target ≤ key best := hbge hky'
            have hdd := hc2 hky'
            rw [absDiff_of_le hky', absDiff_of_le hbt] at hdd
            have hbb : key b ≤ key best := hminb best (List.mem_cons_self _ _) hbt
            omega
          · exact hminb y (List.mem_cons_of_mem _ hy2) hky'
      · intro hall
        have hall' : ∀ y ∈ best :: xs, key y < key target := by
          intro y hy'
          rcases List.mem_cons.mp hy' with hy1 | hy1
          · rw [hy1]
            exact hall best (List.mem_cons_self _ _)
          · exact hall y (List.mem_cons_of_mem _ (List.mem_cons_of_mem _ hy1))
        have hb := hlt hall'
        intro y hy'
        rcases List.mem_cons.mp hy' with hy1 | hy1
        · rw [hy1]
          exact hb best (List.mem_cons_self _ _)
        · rcases List.mem_cons.mp hy1 with hy2 | hy2
          · rw [hy2]
            have hkb : key best < key target := hall best (List.mem_cons_self _ _)
            have hxb : key x ≤ key best := by
              have := hc1 hkb
              omega
            have hbb : key best ≤ key b := hb best (List.mem_cons_self _ _)
            omega
          · exact hb y (List.mem_cons_of_mem _ hy2)

theorem headD_mem {α : Type} (l : List α) (d : α) (h : l ≠ []) : l.headD d ∈ l := by
  cases l with
  | nil => exact absurd rfl h
  | cons a as => simp

/-- Modelled from the spec: the enumerated sample-representation kinds
(signed/unsigned/float kind × bit width × packed-or-planar) of the external
audio library the encoder backend descriptor uses (`GrooveSampleFormat`
mirrors `AVSampleFormat`); `NONE` is the list terminator of a supported-set
descriptor. -/
inductive GrooveSampleFormat where
  | NONE
  | U8
  | S16
  | S32
  | FLT
  | DBL
  | U8P
  | S16P
  | S32P
  | FLTP
  | DBLP
deriving DecidableEq

/-- Modelled from the spec: bytes-per-sample of each sample representation
(`av_get_bytes_per_sample`, an external collaborator; 0 for the `NONE`
terminator). -/
def av_get_bytes_per_sample : GrooveSampleFormat → Int
  | .NONE => 0
  | .U8 => 1
  | .S16 => 2
  | .S32 => 4
  | .FLT => 4
  | .DBL => 8
  | .U8P => 1
  | .S16P => 2
  | .S32P => 4
  | .FLTP => 4
  | .DBLP => 8

/-- Modelled from the spec: the packed (interleaved) variant of a sample
representation, with the same kind and byte width
(`av_get_packed_sample_fmt`, an external collaborator). -/
def av_get_packed_sample_fmt : GrooveSampleFormat → GrooveSampleFormat
  | .U8P => .U8
  | .S16P => .S16
  | .S32P => .S32
  | .FLTP => .FLT
  | .DBLP => .DBL
  | f => f

/-- Walks the `NONE`-terminated supported-format list looking for `fmt`
(`codec_supports_fmt`, encoder.c); on a well-formed list (no embedded
`NONE`) this is list membership. -/
def codec_supports_fmt (sample_fmts : List GrooveSampleFormat)
    (fmt : GrooveSampleFormat) : Bool :=
  decide (fmt ∈ sample_fmts)

/-- `closest_supported_sample_fmt` (encoder.c).  A `none` supported set
models the C `!codec->sample_fmts` unconstrained case.  On fall-through the
loop's winner is adjusted to its packed variant when the codec also
supports that variant (the `// prefer interleaved format` step); the early
exact-match `return target` bypasses that adjustment. -/
def closest_supported_sample_fmt (sample_fmts : Option (List GrooveSampleFormat))
    (target : GrooveSampleFormat) : GrooveSampleFormat :=
  match sample_fmts with
  | none => target
  | some l =>
    match negotiate_loop av_get_bytes_per_sample target (l.headD .NONE) l with
    | Sum.inl t => t
    | Sum.inr best =>
      if codec_supports_fmt l (av_get_packed_sample_fmt best) then
        av_get_packed_sample_fmt best
      else best

/-- `closest_supported_sample_rate` (encoder.c).  A `none` supported set
models the C `!codec->supported_samplerates` unconstrained case; the
distance axis is the rate itself. -/
def closest_supported_sample_rate (supported_samplerates : Option (List Int))
    (target : Int) : Int :=
  match supported_samplerates with
  | none => target
  | some l =>
    match negotiate_loop (fun x => x) target (l.headD 0) l with
    | Sum.inl t => t
    | Sum.inr best => best

/-- Structurally recursive bit count driver (`fuel` bounds the recursion
depth; `popcount n = popcountAux n n` since `n / 2` shrinks). -/
def popcountAux : Nat → Nat → Nat
  | 0, _ => 0
  | _ + 1, 0 => 0
  | fuel + 1, n + 1 => (n + 1) % 2 + popcountAux fuel ((n + 1) / 2)

/-- Modelled from the spec: the channel count described by a channel-layout
bitmask is its number of set bits (`av_get_channel_layout_nb_channels`, an
external collaborator). -/
def av_get_channel_layout_nb_channels (layout : Nat) : Int :=
  (popcountAux layout layout : Nat)

/-- `closest_supported_channel_layout` (encoder.c).  A `none` supported set
models the C `!codec->channel_layouts` unconstrained case; the distance
axis is the channel count of the layout. -/
def closest_supported_channel_layout (channel_layouts : Option (List Nat))
    (target : Nat) : Nat :=
  match channel_layouts with
  | none => target
  | some l =>
    match negotiate_loop av_get_channel_layout_nb_channels target (l.headD 0) l with
    | Sum.inl t => t
    | Sum.inr best => best

/-- The encoder-backend capability descriptor the negotiation reads
(`AVCodec`): the three supported-set fields, each `none` when the backend
is unconstrained on that axis (the C null pointer). -/
structure AVCodec where
  sample_fmts : Option (List GrooveSampleFormat)
  supported_samplerates : Option (List Int)
  channel_layouts : Option (List Nat)
deriving DecidableEq

/-- `GrooveAudioFormat` (groove.h): sample rate in Hz, sample
representation, channel-layout bitmask. -/
structure GrooveAudioFormat where
  sample_rate : Int
  sample_fmt : GrooveSampleFormat
  channel_layout : Nat
deriving DecidableEq

/-- The three negotiation calls of `groove_encoder_attach` (encoder.c,
lines 440-445) computing `actual_audio_format` from
`target_audio_format`. -/
def negotiate_audio_format (codec : AVCodec) (target : GrooveAudioFormat) :
    GrooveAudioFormat :=
  { sample_rate := closest_supported_sample_rate codec.supported_samplerates target.sample_rate,
    sample_fmt := closest_supported_sample_fmt codec.sample_fmts target.sample_fmt,
    channel_layout := closest_supported_channel_layout codec.channel_layouts target.channel_layout }

/-- A backend descriptor unconstrained on all three axes. -/
def unconstrained_codec : AVCodec :=
  { sample_fmts := none, supported_samplerates := none, channel_layouts := none }

/-- Claim C3: for a non-empty zero-terminated list of supported sample
rates and a positive target, `closest_supported_sample_rate` returns the
target when it is listed; otherwise the minimum listed rate at least the
target when one exists, otherwise the listed rate closest to the target by
absolute difference; the result is always a member of the list. -/
theorem closest_supported_sample_rate_spec (l : List Int) (target : Int)
    (hne : l ≠ []) (hpos : ∀ x ∈ l, 0 < x) (htpos : 0 < target) :
    closest_supported_sample_rate (some l) target ∈ l ∧
    (target ∈ l → closest_supported_sample_rate (some l) target = target) ∧
    (target ∉ l → (∃ x ∈ l, target ≤ x) →
      target ≤ closest_supported_sample_rate (some l) target ∧
      ∀ x ∈ l, target ≤ x → closest_supported_sample_rate (some l) target ≤ x) ∧
    (target ∉ l → (∀ x ∈ l, x < target) →
      ∀ x ∈ l, absDiff target (closest_supported_sample_rate (some l) target) ≤
        absDiff target x) := by
  by_cases hm : target ∈ l
  · have heq : closest_supported_sample_rate (some l) target = target := by
      simp [closest_supported_sample_rate, negotiate_loop_exact (fun x => x) target l hm]
    refine ⟨?_, fun _ => heq, fun hni => absurd hm hni, fun hni => absurd hm hni⟩
    rw [heq]
    exact hm
  · obtain ⟨b, heq, hmem, hge, hlt⟩ :=
      negotiate_loop_closest (fun x => x) target l hm (l.headD 0)
    have heq' : closest_supported_sample_rate (some l) target = b := by
      simp only [closest_supported_sample_rate]
      rw [heq]
    have hbl : b ∈ l := by
      rcases List.mem_cons.mp hmem with hb | hb
      · exact hb ▸ headD_mem l 0 hne
      · exact hb
    rw [heq']
    refine ⟨hbl, fun hc => absurd hc hm, ?_, ?_⟩
    · intro _ hex
      obtain ⟨x, hx, hxt⟩ := hex
      obtain ⟨h1, h2⟩ := hge ⟨x, List.mem_cons_of_mem _ hx, hxt⟩
      exact ⟨h1, fun y hy hty => h2 y (List.mem_cons_of_mem _ hy) hty⟩
    · intro _ hall x hx
      have hall' : ∀ y ∈ l.headD 0 :: l, y < target := by
        intro y hy
        rcases List.mem_cons.mp hy with hy1 | hy1
        · exact hy1 ▸ hall _ (headD_mem l 0 hne)
        · exact hall y hy1
      have hmax := hlt hall'
      have hxb : x ≤ b := hmax x (List.mem_cons_of_mem _ hx)
      have hbt : b < target := hall b hbl
      have hxt : x < target := hall x hx
      rw [absDiff_of_ge (le_of_lt hbt), absDiff_of_ge (le_of_lt hxt)]
      omega

theorem closest_supported_sample_rate_spec_witness :
    closest_supported_sample_rate (some [8000, 48000]) 44100 ∈ ([8000, 48000] : List Int) ∧
    ((44100 : Int) ∈ ([8000, 48000] : List Int) →
      closest_supported_sample_rate (some [8000, 48000]) 44100 = 44100) ∧
    ((44100 : Int) ∉ ([8000, 48000] : List Int) → (∃ x ∈ ([8000, 48000] : List Int), 44100 ≤ x) →
      44100 ≤ closest_supported_sample_rate (some [8000, 48000]) 44100 ∧
      ∀ x ∈ ([8000, 48000] : List Int), 44100 ≤ x →
        closest_supported_sample_rate (some [8000, 48000]) 44100 ≤ x) ∧
    ((44100 : Int) ∉ ([8000, 48000] : List Int) → (∀ x ∈ ([8000, 48000] : List Int), x < 44100) →
      ∀ x ∈ ([8000, 48000] : List Int),
        absDiff 44100 (closest_supported_sample_rate (some [8000, 48000]) 44100) ≤
          absDiff 44100 x) :=
  closest_supported_sample_rate_spec [8000, 48000] 44100 (by decide)
    (by decide) (by decide)

/-- Claim C5: for a non-empty zero-terminated list of supported channel
layouts and a target layout, `closest_supported_channel_layout` returns the
target when it is listed exactly (exact match beats count matching);
otherwise a listed layout of minimum channel count at least the target's
count when one exists, otherwise a listed layout whose channel count is
closest to the target's by absolute difference; the result is always a
member of the list. -/
theorem closest_supported_channel_layout_spec (l : List Nat) (target : Nat)
    (hne : l ≠ []) (hnz : ∀ x ∈ l, x ≠ 0) :
    closest_supported_channel_layout (some l) target ∈ l ∧
    (target ∈ l → closest_supported_channel_layout (some l) target = target) ∧
    (target ∉ l →
      (∃ x ∈ l, av_get_channel_layout_nb_channels target ≤
        av_get_channel_layout_nb_channels x) →
      av_get_channel_layout_nb_channels target ≤
        av_get_channel_layout_nb_channels (closest_supported_channel_layout (some l) target) ∧
      ∀ x ∈ l, av_get_channel_layout_nb_channels target ≤
          av_get_channel_layout_nb_channels x →
        av_get_channel_layout_nb_channels (closest_supported_channel_layout (some l) target) ≤
          av_get_channel_layout_nb_channels x) ∧
    (target ∉ l →
      (∀ x ∈ l, av_get_channel_layout_nb_channels x <
        av_get_channel_layout_nb_channels target) →
      ∀ x ∈ l, absDiff (av_get_channel_layout_nb_channels target)
          (av_get_channel_layout_nb_channels (closest_supported_channel_layout (some l) target)) ≤
        absDiff (av_get_channel_layout_nb_channels target)
          (av_get_channel_layout_nb_channels x)) := by
  by_cases hm : target ∈ l
  · have heq : closest_supported_channel_layout (some l) target = target := by
      simp [closest_supported_channel_layout,
        negotiate_loop_exact av_get_channel_layout_nb_channels target l hm]
    refine ⟨?_, fun _ => heq, fun hni => absurd hm hni, fun hni => absurd hm hni⟩
    rw [heq]
    exact hm
  · obtain ⟨b, heq, hmem, hge, hlt⟩ :=
      negotiate_loop_closest av_get_channel_layout_nb_channels target l hm (l.headD 0)
    have heq' : closest_supported_channel_layout (some l) target = b := by
      simp only [closest_supported_channel_layout]
      rw [heq]
    have hbl : b ∈ l := by
      rcases List.mem_cons.mp hmem with hb | hb
      · exact hb ▸ headD_mem l 0 hne
      · exact hb
    rw [heq']
    refine ⟨hbl, fun hc => absurd hc hm, ?_, ?_⟩
    · intro _ hex
      obtain ⟨x, hx, hxt⟩ := hex
      obtain ⟨h1, h2⟩ := hge ⟨x, List.mem_cons_of_mem _ hx, hxt⟩
      exact ⟨h1, fun y hy hty => h2 y (List.mem_cons_of_mem _ hy) hty⟩
    · intro _ hall x hx
      have hall' : ∀ y ∈ l.headD 0 :: l, av_get_channel_layout_nb_channels y <
          av_get_channel_layout_nb_channels target := by
        intro y hy
        rcases List.mem_cons.mp hy with hy1 | hy1
        · exact hy1 ▸ hall _ (headD_mem l 0 hne)
        · exact hall y hy1
      have hmax := hlt hall'
      have hxb := hmax x (List.mem_cons_of_mem _ hx)
      have hbt := hall b hbl
      have hxt := hall x hx
      rw [absDiff_of_ge (le_of_lt hbt), absDiff_of_ge (le_of_lt hxt)]
      omega

theorem closest_supported_channel_layout_spec_witness :
    closest_supported_channel_layout (some [4, 3]) 1 ∈ [4, 3] ∧
    (1 ∈ [4, 3] → closest_supported_channel_layout (some [4, 3]) 1 = 1) ∧
    (1 ∉ [4, 3] →
      (∃ x ∈ [4, 3], av_get_channel_layout_nb_channels 1 ≤
        av_get_channel_layout_nb_channels x) →
      av_get_channel_layout_nb_channels 1 ≤
        av_get_channel_layout_nb_channels (closest_supported_channel_layout (some [4, 3]) 1) ∧
      ∀ x ∈ [4, 3], av_get_channel_layout_nb_channels 1 ≤
          av_get_channel_layout_nb_channels x →
        av_get_channel_layout_nb_channels (closest_supported_channel_layout (some [4, 3]) 1) ≤
          av_get_channel_layout_nb_channels x) ∧
    (1 ∉ [4, 3] →
      (∀ x ∈ [4, 3], av_get_channel_layout_nb_channels x <
        av_get_channel_layout_nb_channels 1) →
      ∀ x ∈ [4, 3], absDiff (av_get_channel_layout_nb_channels 1)
          (av_get_channel_layout_nb_channels (closest_supported_channel_layout (some [4, 3]) 1)) ≤
        absDiff (av_get_channel_layout_nb_channels 1)
          (av_get_channel_layout_nb_channels x)) :=
  closest_supported_channel_layout_spec [4, 3] 1 (by decide) (by decide)

/-- Claim C4: for a non-empty `NONE`-terminated list of supported sample
formats and a target format, `closest_supported_sample_fmt` returns the
target when it is listed; otherwise it selects a listed format whose byte
width is the least listed width at least the target's width when one
exists, otherwise a greatest (closest-from-below) listed width, and then
returns the packed variant of the selected format when that variant is
also listed, else the selected format itself; the result is always a
member of the list. -/
theorem closest_supported_sample_fmt_spec (l : List GrooveSampleFormat)
    (target : GrooveSampleFormat) (hne : l ≠ [])
    (hnn : GrooveSampleFormat.NONE ∉ l) :
    closest_supported_sample_fmt (some l) target ∈ l ∪ [target] ∧
    (target ∈ l → closest_supported_sample_fmt (some l) target = target) ∧
    (target ∉ l → closest_supported_sample_fmt (some l) target ∈ l ∧
      ∃ best ∈ l,
        closest_supported_sample_fmt (some l) target =
          (if av_get_packed_sample_fmt best ∈ l then av_get_packed_sample_fmt best
           else best) ∧
        ((∃ x ∈ l, av_get_bytes_per_sample target ≤ av_get_bytes_per_sample x) →
          av_get_bytes_per_sample target ≤ av_get_bytes_per_sample best ∧
          ∀ x ∈ l, av_get_bytes_per_sample target ≤ av_get_bytes_per_sample x →
            av_get_bytes_per_sample best ≤ av_get_bytes_per_sample x) ∧
        ((∀ x ∈ l, av_get_bytes_per_sample x < av_get_bytes_per_sample target) →
          ∀ x ∈ l, absDiff (av_get_bytes_per_sample target) (av_get_bytes_per_sample best) ≤
            absDiff (av_get_bytes_per_sample target) (av_get_bytes_per_sample x))) := by
  by_cases hm : target ∈ l
  · have heq : closest_supported_sample_fmt (some l) target = target := by
      simp [closest_supported_sample_fmt,
        negotiate_loop_exact av_get_bytes_per_sample target l hm]
    refine ⟨?_, fun _ => heq, fun hni => absurd hm hni⟩
    rw [heq]
    simp
  · obtain ⟨b, heq, hmem, hge, hlt⟩ :=
      negotiate_loop_closest av_get_bytes_per_sample target l hm (l.headD .NONE)
    have hbl : b ∈ l := by
      rcases List.mem_cons.mp hmem with hb | hb
      · exact hb ▸ headD_mem l GrooveSampleFormat.NONE hne
      · exact hb
    have heq' : closest_supported_sample_fmt (some l) target =
        (if av_get_packed_sample_fmt b ∈ l then av_get_packed_sample_fmt b else b) := by
      simp only [closest_supported_sample_fmt]
      rw [heq]
      by_cases hp : av_get_packed_sample_fmt b ∈ l
      · simp [codec_supports_fmt, hp]
      · simp [codec_supports_fmt, hp]
    have hres : closest_supported_sample_fmt (some l) target ∈ l := by
      rw [heq']
      by_cases hp : av_get_packed_sample_fmt b ∈ l
      · simp only [if_pos hp]
        exact hp
      · simp only [if_neg hp]
        exact hbl
    refine ⟨by simp [hres], fun hc => absurd hc hm, fun _ => ⟨hres, b, hbl, heq', ?_, ?_⟩⟩
    · intro hex
      obtain ⟨x, hx, hxt⟩ := hex
      obtain ⟨h1, h2⟩ := hge ⟨x, List.mem_cons_of_mem _ hx, hxt⟩
      exact ⟨h1, fun y hy hty => h2 y (List.mem_cons_of_mem _ hy) hty⟩
    · intro hall x hx
      have hall' : ∀ y ∈ l.headD .NONE :: l,
          av_get_bytes_per_sample y < av_get_bytes_per_sample target := by
        intro y hy
        rcases List.mem_cons.mp hy with hy1 | hy1
        · exact hy1 ▸ hall _ (headD_mem l GrooveSampleFormat.NONE hne)
        · exact hall y hy1
      have hmax := hlt hall'
      have hxb := hmax x (List.mem_cons_of_mem _ hx)
      have hbt := hall b hbl
      have hxt := hall x hx
      rw [absDiff_of_ge (le_of_lt hbt), absDiff_of_ge (le_of_lt hxt)]
      omega

theorem closest_supported_sample_fmt_spec_witness :
    closest_supported_sample_fmt (some [.S16P, .S16, .S32P]) .U8 ∈
      [GrooveSampleFormat.S16P, .S16, .S32P] ∪ [GrooveSampleFormat.U8] ∧
    (GrooveSampleFormat.U8 ∈ [GrooveSampleFormat.S16P, .S16, .S32P] →
      closest_supported_sample_fmt (some [.S16P, .S16, .S32P]) .U8 = .U8) ∧
    (GrooveSampleFormat.U8 ∉ [GrooveSampleFormat.S16P, .S16, .S32P] →
      closest_supported_sample_fmt (some [.S16P, .S16, .S32P]) .U8 ∈
        [GrooveSampleFormat.S16P, .S16, .S32P] ∧
      ∃ best ∈ [GrooveSampleFormat.S16P, .S16, .S32P],
        closest_supported_sample_fmt (some [.S16P, .S16, .S32P]) .U8 =
          (if av_get_packed_sample_fmt best ∈ [GrooveSampleFormat.S16P, .S16, .S32P]
           then av_get_packed_sample_fmt best else best) ∧
        ((∃ x ∈ [GrooveSampleFormat.S16P, .S16, .S32P],
            av_get_bytes_per_sample .U8 ≤ av_get_bytes_per_sample x) →
          av_get_bytes_per_sample .U8 ≤ av_get_bytes_per_sample best ∧
          ∀ x ∈ [GrooveSampleFormat.S16P, .S16, .S32P],
            av_get_bytes_per_sample .U8 ≤ av_get_bytes_per_sample x →
              av_get_bytes_per_sample best ≤ av_get_bytes_per_sample x) ∧
        ((∀ x ∈ [GrooveSampleFormat.S16P, .S16, .S32P],
            av_get_bytes_per_sample x < av_get_bytes_per_sample .U8) →
          ∀ x ∈ [GrooveSampleFormat.S16P, .S16, .S32P],
            absDiff (av_get_bytes_per_sample .U8) (av_get_bytes_per_sample best) ≤
              absDiff (av_get_bytes_per_sample .U8) (av_get_bytes_per_sample x))) :=
  closest_supported_sample_fmt_spec [.S16P, .S16, .S32P] .U8 (by decide) (by decide)

/-- Claim C6: negotiating any `GrooveAudioFormat` against an unconstrained
backend descriptor (null supported set on every axis) returns each axis,
and hence the whole format, unchanged. -/
theorem unconstrained_negotiation_round_trip (f : GrooveAudioFormat) :
    closest_supported_sample_fmt none f.sample_fmt = f.sample_fmt ∧
    closest_supported_sample_rate none f.sample_rate = f.sample_rate ∧
    closest_supported_channel_layout none f.channel_layout = f.channel_layout ∧
    negotiate_audio_format unconstrained_codec f = f :=
  ⟨rfl, rfl, rfl, rfl⟩

/-- Return codes of `groove_sink_get_buffer` / `groove_encoder_get_buffer`
(groove.h): no data available. -/
def GROOVE_BUFFER_NO : Int := 0

/-- Return codes of `groove_sink_get_buffer` / `groove_encoder_get_buffer`
(groove.h): a data buffer was returned. -/
def GROOVE_BUFFER_YES : Int := 1

/-- Return codes of `groove_sink_get_buffer` / `groove_encoder_get_buffer`
(groove.h): end of a stream segment. -/
def GROOVE_BUFFER_END : Int := 2

/-- An encoded output chunk (`GrooveBuffer` of groove.h together with the
fields of `GrooveBufferPrivate` the encoder writes in
`encoder_write_packet`): originating playlist item (nullable pointer,
modelled as `Option Nat`), timeline position (C double, modelled as an
exact rational since the encoder only stores and compares it), the audio
format in effect, the copied payload bytes, the number of bytes
`av_malloc` was asked for, and the reported `size` field. -/
structure GrooveBuffer where
  item : Option Nat
  pos : Rat
  format : GrooveAudioFormat
  data : List Nat
  alloc_size : Nat
  size : Nat
deriving DecidableEq

/-- Modelled from the spec (section 4.1): the concurrent queue
(`GrooveQueue`, queue.c, not among the sources) is an ordered sequence of
pending items plus an abort flag. -/
structure GrooveQueue (α : Type) where
  items : List α
  aborted : Bool
deriving DecidableEq

/-- Modelled from the spec (section 4.1): `put` appends an item at the
tail and never fails. -/
def groove_queue_put {α : Type} (q : GrooveQueue α) (x : α) : GrooveQueue α :=
  { q with items := q.items ++ [x] }

/-- Modelled from the spec (section 4.1): `get` removes the head item
(`some` head, the C return value 1); with nothing pending it reports no
data (`none`, the C return value 0 after abort or in non-blocking mode). -/
def groove_queue_get {α : Type} (q : GrooveQueue α) : GrooveQueue α × Option α :=
  match q.items with
  | [] => (q, none)
  | x :: rest => ({ q with items := rest }, some x)

/-- Modelled from the spec (section 4.1): `flush` removes every pending
item; the removed items are returned as the list handed to the cleanup
callback, in order, each exactly once. -/
def groove_queue_flush {α : Type} (q : GrooveQueue α) : GrooveQueue α × List α :=
  ({ q with items := [] }, q.items)

/-- Modelled from the spec (section 4.1): `abort` raises the abort flag,
waking blocked getters. -/
def groove_queue_abort {α : Type} (q : GrooveQueue α) : GrooveQueue α :=
  { q with aborted := true }

/-- Modelled from the spec (section 4.1): `reset` clears the abort flag
and drops leftover items through cleanup (the returned list). -/
def groove_queue_reset {α : Type} (q : GrooveQueue α) : GrooveQueue α × List α :=
  ({ items := [], aborted := false }, q.items)

/-- Modelled from the spec (section 4.1): `purge` removes and cleans up
exactly the items matching the predicate, preserving the relative order of
the rest; the second component is the list handed to the cleanup callback,
in order, each exactly once. -/
def groove_queue_purge {α : Type} (p : α → Bool) (q : GrooveQueue α) :
    GrooveQueue α × List α :=
  ({ q with items := q.items.filter (fun x => !(p x)) }, q.items.filter p)

/-- `static GrooveBuffer *end_of_q_sentinel = NULL;` (encoder.c line 38):
the end-of-stream marker put through the audio queue is the null pointer,
modelled as `none` among the queue's nullable buffer pointers. -/
def end_of_q_sentinel : Option GrooveBuffer := none

/-- The encoder session state: the public `GrooveEncoder` fields the
sources touch together with its `GrooveEncoderPrivate` internals
(encoder.c).  Handles owned through external libraries (format context,
codec context, stream, worker thread) are modelled as nullable opaque
handles; the attached sink is modelled by its registration flag. -/
structure GrooveEncoder where
  target_audio_format : GrooveAudioFormat
  actual_audio_format : GrooveAudioFormat
  playlist : Option Nat
  audioq : GrooveQueue (Option GrooveBuffer)
  sink_attached : Bool
  codec_ctx : Option Nat
  fmt_ctx : Option Nat
  stream : Option Nat
  thread_id : Option Nat
  purge_item : Option Nat
  encode_head : Option Nat
  encode_pos : Rat
  encode_format : GrooveAudioFormat
  sent_header : Bool
deriving DecidableEq

/-- A release of a handle owned by the session, made observable: closing
and freeing the codec context (`avcodec_close` + `av_free`) or freeing the
format context (`avformat_free_context`, which also frees the stream). -/
inductive Res where
  | codecCtx (h : Nat)
  | fmtCtx (h : Nat)
deriving DecidableEq

/-- `groove_encoder_create` (encoder.c): zero-initialized state with the
default target format (44100 Hz, S16, stereo layout `0x3`). -/
def groove_encoder_create : GrooveEncoder :=
  { target_audio_format := { sample_rate := 44100, sample_fmt := .S16, channel_layout := 3 },
    actual_audio_format := { sample_rate := 0, sample_fmt := .NONE, channel_layout := 0 },
    playlist := none,
    audioq := { items := [], aborted := false },
    sink_attached := false,
    codec_ctx := none,
    fmt_ctx := none,
    stream := none,
    thread_id := none,
    purge_item := none,
    encode_head := none,
    encode_pos := 0,
    encode_format := { sample_rate := 0, sample_fmt := .NONE, channel_layout := 0 },
    sent_header := false }

/-- `groove_encoder_detach` (encoder.c): unregister the sink, flush and
abort the queue, join the worker, close/free the codec context and null
it, null the stream, free the format context — the source does NOT null
`fmt_ctx` afterwards, and the model keeps that faithfully — then reset the
head state and return 0.  The second result is the return value, the third
the list of handle releases performed. -/
def groove_encoder_detach (enc : GrooveEncoder) : GrooveEncoder × Int × List Res :=
  let q1 := groove_queue_abort (groove_queue_flush enc.audioq).1
  let frees : List Res :=
    (match enc.codec_ctx with
     | some h => [Res.codecCtx h]
     | none => []) ++
    (match enc.fmt_ctx with
     | some h => [Res.fmtCtx h]
     | none => [])
  ({ enc with
      sink_attached := false,
      audioq := q1,
      thread_id := none,
      codec_ctx := none,
      stream := none,
      encode_head := none,
      encode_pos := -1,
      sent_header := false,
      playlist := none },
   0, frees)

/-- Number of bytes in a C `int`: the callback's length parameter
`buf_size` has type `int`, so `sizeof(buf_size)` is 4. -/
def SIZEOF_INT : Nat := 4

/-- `encoder_write_packet` (encoder.c): the avio output-byte callback.
Builds a chunk stamped with the current encode head (item, position,
format), allocates `av_malloc(sizeof(buf_size))` bytes — the size of the
length parameter's type, not the length value — copies `buf_size` bytes
into it, sets `size` to `buf_size`, and enqueues the chunk.  The third
result is the enqueued chunk itself, exposed for specification. -/
def encoder_write_packet (enc : GrooveEncoder) (buf : List Nat) :
    GrooveEncoder × Int × GrooveBuffer :=
  let buffer : GrooveBuffer :=
    { item := enc.encode_head,
      pos := enc.encode_pos,
      format := enc.encode_format,
      data := buf,
      alloc_size := SIZEOF_INT,
      size := buf.length }
  ({ enc with audioq := groove_queue_put enc.audioq (some buffer) }, 0, buffer)

/-- A decoded buffer handed to the worker by the sink (`GrooveBuffer` on
the input side, with its decoded frame): originating playlist item,
position, format and frame samples. -/
structure SourceBuffer where
  item : Option Nat
  pos : Rat
  format : GrooveAudioFormat
  frame : List Nat
deriving DecidableEq

/-- Modelled from the spec (section 6): one outcome of the worker's
blocking `groove_sink_get_buffer` pull — a data buffer
(`GROOVE_BUFFER_YES`) or an end-of-stream signal (`GROOVE_BUFFER_END`);
the end of the script models the terminal `GROOVE_BUFFER_NO` that makes
the worker exit its loop. -/
inductive SinkEvent where
  | buf (b : SourceBuffer)
  | segmentEnd
deriving DecidableEq

/-- `encode_buffer` (encoder.c), under the idealized deterministic backend
the end-to-end spec property assumes (spec sections 6 and 8): submitting a
real frame records the encode head from the buffer and yields exactly one
packet, whose write through the format context fires the
`encoder_write_packet` callback once with payload `enc_fn frame`;
submitting the null flush frame yields no packet (`got_packet == 0`), so
the call returns -1 and the drain loop stops. -/
def encode_buffer (enc_fn : List Nat → List Nat) (e : GrooveEncoder)
    (buffer : Option SourceBuffer) : GrooveEncoder × Int :=
  match buffer with
  | none => (e, -1)
  | some b =>
    let e1 := { e with
      encode_head := b.item,
      encode_pos := b.pos,
      encode_format := b.format }
    ((encoder_write_packet e1 (enc_fn b.frame)).1, 0)

/-- The encoded chunk `encode_buffer` enqueues for a source buffer. -/
def encoded_chunk (enc_fn : List Nat → List Nat) (b : SourceBuffer) : GrooveBuffer :=
  { item := b.item,
    pos := b.pos,
    format := b.format,
    data := enc_fn b.frame,
    alloc_size := SIZEOF_INT,
    size := (enc_fn b.frame).length }

/-- `encode_thread` (encoder.c), run over a sink script: each iteration
writes the container header if none is pending for this segment (no bytes
are emitted through the callback at header time in the idealized model —
the avio layer buffers them), then pulls from the sink.  On data, the
buffer is encoded under the head lock; on segment end, the backend and
format-context drain loops run (yielding nothing for the stateless backend
model), the null sentinel is enqueued, the head is cleared, the
header-sent flag dropped, the trailer written, and the loop continues; at
the end of the script (`GROOVE_BUFFER_NO`) the worker exits. -/
def encode_thread (enc_fn : List Nat → List Nat) (e : GrooveEncoder) :
    List SinkEvent → GrooveEncoder
  | [] => e
  | ev :: rest =>
    let e0 := if e.sent_header then e else { e with sent_header := true }
    match ev with
    | .segmentEnd =>
      let e1 := { e0 with
          audioq := groove_queue_put e0.audioq end_of_q_sentinel,
          encode_head := none,
          encode_pos := -1,
          sent_header := false }
      encode_thread enc_fn e1 rest
    | .buf b =>
      encode_thread enc_fn (encode_buffer enc_fn e0 (some b)).1 rest

/-- `groove_encoder_get_buffer` (encoder.c): pop from the audio queue; on
the null sentinel null the out-parameter and report `GROOVE_BUFFER_END`,
on a real chunk hand it out with `GROOVE_BUFFER_YES`, otherwise null the
out-parameter and report `GROOVE_BUFFER_NO`.  The second result is the
out-parameter `*buffer`. -/
def groove_encoder_get_buffer (e : GrooveEncoder) :
    GrooveEncoder × Option GrooveBuffer × Int :=
  match groove_queue_get e.audioq with
  | (q1, some v) =>
    if v = end_of_q_sentinel then ({ e with audioq := q1 }, none, GROOVE_BUFFER_END)
    else ({ e with audioq := q1 }, v, GROOVE_BUFFER_YES)
  | (q1, none) => ({ e with audioq := q1 }, none, GROOVE_BUFFER_NO)

/-- `n` successive `groove_encoder_get_buffer` calls: the list of
(return code, out-parameter) pairs observed, and the final state. -/
def get_buffer_iter (e : GrooveEncoder) :
    Nat → List (Int × Option GrooveBuffer) × GrooveEncoder
  | 0 => ([], e)
  | n + 1 =>
    let r := groove_encoder_get_buffer e
    let rest := get_buffer_iter r.1 n
    ((r.2.2, r.2.1) :: rest.1, rest.2)

/-- `audioq_purge` (encoder.c): the queue's purge predicate — a queued
chunk matches when its originating item is the item being purged
(`buffer->item == e->purge_item`).  The null sentinel is never in the
queue when a purge runs in the modelled scenario (the C callback would
dereference it), so it never matches. -/
def audioq_purge (purge_item : Option Nat) (obj : Option GrooveBuffer) : Bool :=
  match obj with
  | some buffer => decide (buffer.item = purge_item)
  | none => false

/-- `sink_purge` (encoder.c): under the head lock, set `purge_item`, purge
the audio queue through `audioq_purge`, clear `purge_item`, and if the
purged item is the current encode head, clear the head and set the
position to -1.0.  The second result is the list of chunks handed to the
cleanup callback (`audioq_cleanup`, which unrefs each exactly once). -/
def sink_purge (e : GrooveEncoder) (item : Option Nat) :
    GrooveEncoder × List (Option GrooveBuffer) :=
  let r := groove_queue_purge (audioq_purge item) e.audioq
  let e2 := { e with audioq := r.1, purge_item := none }
  if e2.encode_head = item then
    ({ e2 with encode_head := none, encode_pos := -1 }, r.2)
  else
    (e2, r.2)

/-- The outcomes of the external calls `groove_encoder_attach` makes, one
field per fallible step (`none`/`false` means that call fails): format
context allocation, encoder resolution (`av_guess_format` +
`av_guess_codec` + `avcodec_find_encoder`, which also yields the backend
capability descriptor), stream creation, codec context allocation, codec
open, sink attach, worker thread creation. -/
structure AttachEnv where
  fmt_ctx_alloc : Option Nat
  codec : Option AVCodec
  stream_alloc : Option Nat
  codec_ctx_alloc : Option Nat
  codec_open_ok : Bool
  sink_attach_ok : Bool
  thread_create : Option Nat
deriving DecidableEq

/-- The observable outcome of `groove_encoder_attach`: the resulting
state, the return value, the error logged (the `av_log` message), the
handles this attach call allocated, and the handles its rollback freed. -/
structure AttachResult where
  enc : GrooveEncoder
  ret : Int
  err : Option String
  allocs : List Res
  frees : List Res
deriving DecidableEq

/-- The failure path of `groove_encoder_attach` (encoder.c): every failed
step calls `groove_encoder_detach` on the partial session, logs its own
message and returns -1. -/
def attach_fail (e : GrooveEncoder) (msg : String) (allocs : List Res) : AttachResult :=
  { enc := (groove_encoder_detach e).1,
    ret := -1,
    err := some msg,
    allocs := allocs,
    frees := (groove_encoder_detach e).2.2 }

/-- `groove_encoder_attach` (encoder.c): record the playlist, reset the
queue, then step through format-context allocation, encoder resolution,
stream creation, format negotiation, codec-context allocation, codec open,
sink attach and worker start; each failure rolls back through
`groove_encoder_detach` with its own logged message, success returns 0
with the session fully started. -/
def groove_encoder_attach (env : AttachEnv) (enc : GrooveEncoder)
    (playlist : Nat) : AttachResult :=
  let e0 := { enc with
    playlist := some playlist,
    audioq := (groove_queue_reset enc.audioq).1 }
  match env.fmt_ctx_alloc with
  | none => attach_fail { e0 with fmt_ctx := none } "unable to allocate format context" []
  | some f =>
    let e1 := { e0 with fmt_ctx := some f }
    match env.codec with
    | none => attach_fail e1 "unable to find encoder" [Res.fmtCtx f]
    | some codec =>
      match env.stream_alloc with
      | none => attach_fail e1 "unable to create output stream" [Res.fmtCtx f]
      | some st =>
        let e2 := { e1 with
          stream := some st,
          actual_audio_format := negotiate_audio_format codec enc.target_audio_format }
        match env.codec_ctx_alloc with
        | none => attach_fail e2 "unable to allocate context" [Res.fmtCtx f]
        | some cc =>
          let e3 := { e2 with codec_ctx := some cc }
          if env.codec_open_ok then
            if env.sink_attach_ok then
              let e4 := { e3 with sink_attached := true }
              match env.thread_create with
              | none => attach_fail e4 "unable to create encoder thread"
                  [Res.fmtCtx f, Res.codecCtx cc]
              | some th =>
                { enc := { e4 with thread_id := some th },
                  ret := 0,
                  err := none,
                  allocs := [Res.fmtCtx f, Res.codecCtx cc],
                  frees := [] }
            else attach_fail e3 "unable to attach sink" [Res.fmtCtx f, Res.codecCtx cc]
          else attach_fail e3 "unable to open codec" [Res.fmtCtx f, Res.codecCtx cc]

/-- An attach environment in which every external call succeeds against an
unconstrained backend. -/
def env_all_ok : AttachEnv :=
  { fmt_ctx_alloc := some 1,
    codec := some unconstrained_codec,
    stream_alloc := some 2,
    codec_ctx_alloc := some 3,
    codec_open_ok := true,
    sink_attach_ok := true,
    thread_create := some 4 }

/-- The session state right after a successful attach on a fresh
encoder. -/
def attached_state : GrooveEncoder :=
  (groove_encoder_attach env_all_ok groove_encoder_create 7).enc

/-- Claim C1 (code bug): detach on a never-attached encoder returns 0 and
releases nothing, and a second detach right after a first one returns 0
and reproduces the same state — but because the source never nulls
`e->fmt_ctx` after `avformat_free_context`, the second call frees the
format-context handle a second time, violating the no-double-release part
of the claim: the first detach already released `fmtCtx 1`, and the second
call's release list contains `fmtCtx 1` again. -/
theorem groove_encoder_detach_second_call_refrees_fmt_ctx :
    (groove_encoder_detach groove_encoder_create).2.1 = 0 ∧
    (groove_encoder_detach groove_encoder_create).2.2 = [] ∧
    (groove_encoder_detach attached_state).2.1 = 0 ∧
    (groove_encoder_detach (groove_encoder_detach attached_state).1).2.1 = 0 ∧
    (groove_encoder_detach (groove_encoder_detach attached_state).1).1 =
      (groove_encoder_detach attached_state).1 ∧
    Res.fmtCtx 1 ∈ (groove_encoder_detach attached_state).2.2 ∧
    (groove_encoder_detach (groove_encoder_detach attached_state).1).2.2 =
      [Res.fmtCtx 1] := by
  decide

/-- Claim C2 (code bug): the output-byte callback reports `size = buf_size`
and copies all `buf_size` bytes, but allocates only
`sizeof(buf_size) = 4` bytes for the payload (`av_malloc(sizeof(buf_size))`
instead of `av_malloc(buf_size)`), so for the 4096-byte avio payload the
allocated size differs from the reported byte length. -/
theorem encoder_write_packet_payload_sizing :
    (encoder_write_packet groove_encoder_create (List.replicate 4096 0)).2.2.size = 4096 ∧
    (encoder_write_packet groove_encoder_create (List.replicate 4096 0)).2.2.data.length = 4096 ∧
    (encoder_write_packet groove_encoder_create (List.replicate 4096 0)).2.2.alloc_size = 4 ∧
    (encoder_write_packet groove_encoder_create (List.replicate 4096 0)).2.2.alloc_size ≠
      (encoder_write_packet groove_encoder_create (List.replicate 4096 0)).2.2.size := by
  refine ⟨?_, ?_, rfl, ?_⟩ <;>
    · simp only [encoder_write_packet, SIZEOF_INT, List.length_replicate]
      try decide

/-- Claim C10: the end-of-stream sentinel is the null pointer; the
out-parameter of `groove_encoder_get_buffer` is nulled whenever the call
does not return `GROOVE_BUFFER_YES` (both on End and on NoData), a
`GROOVE_BUFFER_YES` result never carries a null chunk, and
`GROOVE_BUFFER_END` is returned exactly when the dequeued item is the
null sentinel. -/
theorem get_buffer_null_discipline (e : GrooveEncoder) :
    end_of_q_sentinel = (none : Option GrooveBuffer) ∧
    ((groove_encoder_get_buffer e).2.2 = GROOVE_BUFFER_END →
      (groove_encoder_get_buffer e).2.1 = none) ∧
    ((groove_encoder_get_buffer e).2.2 = GROOVE_BUFFER_NO →
      (groove_encoder_get_buffer e).2.1 = none) ∧
    ((groove_encoder_get_buffer e).2.2 = GROOVE_BUFFER_YES →
      (groove_encoder_get_buffer e).2.1 ≠ none) ∧
    ((groove_encoder_get_buffer e).2.2 = GROOVE_BUFFER_END ↔
      ∃ rest, e.audioq.items = end_of_q_sentinel :: rest) := by
  rcases he : e.audioq.items with _ | ⟨v, rest⟩
  · refine ⟨rfl, ?_, ?_, ?_, ?_⟩ <;>
      simp [groove_encoder_get_buffer, groove_queue_get, he, end_of_q_sentinel,
        GROOVE_BUFFER_NO, GROOVE_BUFFER_YES, GROOVE_BUFFER_END]
  · rcases v with _ | c
    · refine ⟨rfl, ?_, ?_, ?_, ?_⟩ <;>
        simp [groove_encoder_get_buffer, groove_queue_get, he, end_of_q_sentinel,
          GROOVE_BUFFER_NO, GROOVE_BUFFER_YES, GROOVE_BUFFER_END]
    · refine ⟨rfl, ?_, ?_, ?_, ?_⟩ <;>
        simp [groove_encoder_get_buffer, groove_queue_get, he, end_of_q_sentinel,
          GROOVE_BUFFER_NO, GROOVE_BUFFER_YES, GROOVE_BUFFER_END]

/-- Claim C8: purging item A removes from the output queue exactly the
chunks whose originating item is A — the remaining queue is the original
filtered to the non-matching chunks, in their original relative order, and
the cleanup list is the original filtered to the matching chunks, each
original occurrence going to exactly one of the two — and the encode head
is cleared (item none, position -1.0) exactly when it was A, otherwise
left unchanged. -/
theorem sink_purge_spec (e : GrooveEncoder) (A : Nat)
    (hns : end_of_q_sentinel ∉ e.audioq.items) :
    (sink_purge e (some A)).1.audioq.items =
      e.audioq.items.filter (fun o => !(audioq_purge (some A) o)) ∧
    (sink_purge e (some A)).2 = e.audioq.items.filter (audioq_purge (some A)) ∧
    (∀ o, o ∈ (sink_purge e (some A)).2 ↔
      o ∈ e.audioq.items ∧ audioq_purge (some A) o = true) ∧
    ((sink_purge e (some A)).2 ++ (sink_purge e (some A)).1.audioq.items).Perm
      e.audioq.items ∧
    (e.encode_head = some A → (sink_purge e (some A)).1.encode_head = none ∧
      (sink_purge e (some A)).1.encode_pos = -1) ∧
    (e.encode_head ≠ some A → (sink_purge e (some A)).1.encode_head = e.encode_head ∧
      (sink_purge e (some A)).1.encode_pos = e.encode_pos) := by
  by_cases hh : e.encode_head = some A
  · refine ⟨?_, ?_, ?_, ?_, fun _ => ⟨?_, ?_⟩, fun hc => absurd hh hc⟩ <;>
      first
        | (simp only [sink_purge, groove_queue_purge, hh, if_pos]
           exact List.filter_append_perm _ _)
        | (simp [sink_purge, groove_queue_purge, hh, List.mem_filter])
  · refine ⟨?_, ?_, ?_, ?_, fun hc => absurd hc hh, fun _ => ⟨?_, ?_⟩⟩ <;>
      first
        | (simp only [sink_purge, groove_queue_purge, hh, if_neg]
           exact List.filter_append_perm _ _)
        | (simp [sink_purge, groove_queue_purge, hh, List.mem_filter])

/-- A sample chunk originating from playlist item 1, used by the concrete
purge scenario. -/
def chunkA : GrooveBuffer :=
  { item := some 1, pos := 0, format := groove_encoder_create.target_audio_format,
    data := [10], alloc_size := 4, size := 1 }

/-- A sample chunk originating from playlist item 2, used by the concrete
purge scenario. -/
def chunkB : GrooveBuffer :=
  { item := some 2, pos := 1, format := groove_encoder_create.target_audio_format,
    data := [20], alloc_size := 4, size := 1 }

/-- An encoder whose output queue interleaves chunks of items 1 and 2 and
whose encode head is item 1. -/
def purge_demo_state : GrooveEncoder :=
  { groove_encoder_create with
    audioq := { items := [some chunkA, some chunkB, some chunkA], aborted := false },
    encode_head := some 1 }

theorem sink_purge_spec_witness :
    (sink_purge purge_demo_state (some 1)).1.audioq.items =
      purge_demo_state.audioq.items.filter (fun o => !(audioq_purge (some 1) o)) ∧
    (sink_purge purge_demo_state (some 1)).2 =
      purge_demo_state.audioq.items.filter (audioq_purge (some 1)) :=
  ⟨(sink_purge_spec purge_demo_state 1 (by decide)).1,
   (sink_purge_spec purge_demo_state 1 (by decide)).2.1⟩

theorem encode_thread_items (enc_fn : List Nat → List Nat)
    (bufs : List SourceBuffer) :
    ∀ e : GrooveEncoder,
      (encode_thread enc_fn e
          (bufs.map SinkEvent.buf ++ [SinkEvent.segmentEnd])).audioq.items =
        e.audioq.items ++ bufs.map (fun b => some (encoded_chunk enc_fn b)) ++
          [end_of_q_sentinel] := by
  induction bufs with
  | nil =>
    intro e
    by_cases hs : e.sent_header <;>
      simp [encode_thread, hs, groove_queue_put]
  | cons b bs ih =>
    intro e
    by_cases hs : e.sent_header <;>
      simp [encode_thread, hs, encode_buffer, encoder_write_packet,
        groove_queue_put, ih, encoded_chunk]

theorem get_buffer_iter_chunks (chunks : List GrooveBuffer) :
    ∀ e : GrooveEncoder,
      e.audioq.items = chunks.map some ++ [end_of_q_sentinel] →
      (get_buffer_iter e (chunks.length + 1)).1 =
        chunks.map (fun c => (GROOVE_BUFFER_YES, some c)) ++
          [(GROOVE_BUFFER_END, (none : Option GrooveBuffer))] := by
  induction chunks with
  | nil =>
    intro e he
    simp [get_buffer_iter, groove_encoder_get_buffer, groove_queue_get, he,
      end_of_q_sentinel]
  | cons c cs ih =>
    intro e he
    have hstep : groove_encoder_get_buffer e =
        ({ e with audioq := { e.audioq with items := cs.map some ++ [end_of_q_sentinel] } },
         some c, GROOVE_BUFFER_YES) := by
      simp [groove_encoder_get_buffer, groove_queue_get, he, end_of_q_sentinel]
    have hrec := ih
      { e with audioq := { e.audioq with items := cs.map some ++ [end_of_q_sentinel] } } rfl
    show ((groove_encoder_get_buffer e).2.2, (groove_encoder_get_buffer e).2.1) ::
        (get_buffer_iter (groove_encoder_get_buffer e).1 (cs.length + 1)).1 =
      List.map (fun c => (GROOVE_BUFFER_YES, some c)) (c :: cs) ++
        [(GROOVE_BUFFER_END, (none : Option GrooveBuffer))]
    rw [hstep, List.map_cons, List.cons_append]
    exact congrArg (List.cons _) hrec

/-- Claim C7: if the sink yields the buffers `bufs` (all for one playlist
item) and then signals end of stream, the worker enqueues one encoded
chunk per source buffer, in submission order, and the null end-of-stream
sentinel strictly after all of them; `bufs.length + 1` calls of
`groove_encoder_get_buffer` then return `GROOVE_BUFFER_YES` with those
chunks in order followed by exactly one `GROOVE_BUFFER_END`. -/
theorem encoder_segment_end_to_end (enc_fn : List Nat → List Nat)
    (bufs : List SourceBuffer) (A : Nat) (e0 : GrooveEncoder)
    (hq : e0.audioq.items = []) (hA : ∀ b ∈ bufs, b.item = some A) :
    (encode_thread enc_fn e0
        (bufs.map SinkEvent.buf ++ [SinkEvent.segmentEnd])).audioq.items =
      bufs.map (fun b => some (encoded_chunk enc_fn b)) ++ [end_of_q_sentinel] ∧
    (get_buffer_iter
        (encode_thread enc_fn e0 (bufs.map SinkEvent.buf ++ [SinkEvent.segmentEnd]))
        (bufs.length + 1)).1 =
      bufs.map (fun b => (GROOVE_BUFFER_YES, some (encoded_chunk enc_fn b))) ++
        [(GROOVE_BUFFER_END, (none : Option GrooveBuffer))] := by
  have h1 := encode_thread_items enc_fn bufs e0
  rw [hq, List.nil_append] at h1
  refine ⟨h1, ?_⟩
  have h2 := get_buffer_iter_chunks (bufs.map (encoded_chunk enc_fn))
      (encode_thread enc_fn e0 (bufs.map SinkEvent.buf ++ [SinkEvent.segmentEnd]))
      (by rw [h1]; simp [List.map_map])
  rw [List.length_map] at h2
  rw [h2]
  simp [List.map_map]

/-- The identity backend used by the concrete end-to-end scenario. -/
def enc_fn_id : List Nat → List Nat := fun bytes => bytes

/-- Two source buffers of playlist item 1 for the concrete end-to-end
scenario. -/
def demo_bufs : List SourceBuffer :=
  [{ item := some 1, pos := 0, format := groove_encoder_create.target_audio_format,
     frame := [10, 11] },
   { item := some 1, pos := 1, format := groove_encoder_create.target_audio_format,
     frame := [12] }]

theorem encoder_segment_end_to_end_witness :
    (encode_thread enc_fn_id groove_encoder_create
        (demo_bufs.map SinkEvent.buf ++ [SinkEvent.segmentEnd])).audioq.items =
      demo_bufs.map (fun b => some (encoded_chunk enc_fn_id b)) ++ [end_of_q_sentinel] ∧
    (get_buffer_iter
        (encode_thread enc_fn_id groove_encoder_create
          (demo_bufs.map SinkEvent.buf ++ [SinkEvent.segmentEnd]))
        (demo_bufs.length + 1)).1 =
      demo_bufs.map (fun b => (GROOVE_BUFFER_YES, some (encoded_chunk enc_fn_id b))) ++
        [(GROOVE_BUFFER_END, (none : Option GrooveBuffer))] :=
  encoder_segment_end_to_end enc_fn_id demo_bufs 1 groove_encoder_create rfl
    (by decide)

/-- Which of the seven fallible attach steps fails first for a given
environment (`none` when every step succeeds), numbered in source order:
0 format-context allocation, 1 encoder resolution, 2 stream creation,
3 codec-context allocation, 4 codec open, 5 sink attach, 6 worker-thread
creation. -/
def attach_failing_step (env : AttachEnv) : Option Nat :=
  match env.fmt_ctx_alloc with
  | none => some 0
  | some _ =>
    match env.codec with
    | none => some 1
    | some _ =>
      match env.stream_alloc with
      | none => some 2
      | some _ =>
        match env.codec_ctx_alloc with
        | none => some 3
        | some _ =>
          if env.codec_open_ok then
            if env.sink_attach_ok then
              match env.thread_create with
              | none => some 6
              | some _ => none
            else some 5
          else some 4

/-- The message `groove_encoder_attach` logs for each failing step. -/
def attach_error_message : Nat → String
  | 0 => "unable to allocate format context"
  | 1 => "unable to find encoder"
  | 2 => "unable to create output stream"
  | 3 => "unable to allocate context"
  | 4 => "unable to open codec"
  | 5 => "unable to attach sink"
  | _ => "unable to create encoder thread"

theorem attach_error_message_inj :
    ∀ i : Fin 7, ∀ j : Fin 7,
      attach_error_message i.val = attach_error_message j.val → i = j := by
  decide

/-- Claim C9: on every environment, `groove_encoder_attach` either returns
0 with the session fully started (worker thread, codec context, format
context, sink registration and playlist all in place, nothing freed), or
returns -1 having logged the distinct message of the first failing step
(the step-to-message map is injective over the seven steps) and having
rolled back by a literal `groove_encoder_detach` call, after which the
handles released are exactly the handles this attach had allocated and no
partial session state survives (codec context, worker thread, sink
registration, playlist, encode head and header flag all cleared).
Precondition: the encoder starts with no open codec context, as a fresh or
detached encoder does. -/
theorem groove_encoder_attach_spec (env : AttachEnv) (enc : GrooveEncoder)
    (playlist : Nat) (hpre : enc.codec_ctx = none) :
    ((groove_encoder_attach env enc playlist).ret = 0 ∨
      (groove_encoder_attach env enc playlist).ret = -1) ∧
    (groove_encoder_attach env enc playlist).err =
      (attach_failing_step env).map attach_error_message ∧
    ((groove_encoder_attach env enc playlist).ret = 0 →
      (groove_encoder_attach env enc playlist).err = none ∧
      (groove_encoder_attach env enc playlist).frees = [] ∧
      (groove_encoder_attach env enc playlist).enc.thread_id = env.thread_create ∧
      (groove_encoder_attach env enc playlist).enc.codec_ctx = env.codec_ctx_alloc ∧
      (groove_encoder_attach env enc playlist).enc.fmt_ctx = env.fmt_ctx_alloc ∧
      (groove_encoder_attach env enc playlist).enc.sink_attached = true ∧
      (groove_encoder_attach env enc playlist).enc.playlist = some playlist) ∧
    ((groove_encoder_attach env enc playlist).ret = -1 →
      (groove_encoder_attach env enc playlist).err.isSome = true ∧
      (groove_encoder_attach env enc playlist).frees.Perm
        (groove_encoder_attach env enc playlist).allocs ∧
      (groove_encoder_attach env enc playlist).enc.codec_ctx = none ∧
      (groove_encoder_attach env enc playlist).enc.thread_id = none ∧
      (groove_encoder_attach env enc playlist).enc.sink_attached = false ∧
      (groove_encoder_attach env enc playlist).enc.playlist = none ∧
      (groove_encoder_attach env enc playlist).enc.encode_head = none ∧
      (groove_encoder_attach env enc playlist).enc.sent_header = false ∧
      ∃ mid, (groove_encoder_attach env enc playlist).enc =
          (groove_encoder_detach mid).1 ∧
        (groove_encoder_attach env enc playlist).frees =
          (groove_encoder_detach mid).2.2) := by
  obtain ⟨efmt, ecodec, estream, ecc, eopen, esink, ethr⟩ := env
  cases efmt <;> cases ecodec <;> cases estream <;> cases ecc <;>
    cases eopen <;> cases esink <;> cases ethr <;>
  refine ⟨?_, rfl, ?_, ?_⟩ <;>
  first
    | exact Or.inl rfl
    | exact Or.inr rfl
    | (intro h
       exact absurd (show (-1 : Int) = 0 from h) (by decide))
    | (intro h
       exact absurd (show (0 : Int) = -1 from h) (by decide))
    | (intro h
       exact ⟨rfl, rfl, rfl, rfl, rfl, rfl, rfl⟩)
    | (intro h
       refine ⟨rfl, ?_, rfl, rfl, rfl, rfl, rfl, rfl, _, rfl, rfl⟩
       simp only [groove_encoder_attach, attach_fail, groove_encoder_detach, hpre]
       first
         | exact List.Perm.refl _
         | exact List.Perm.swap _ _ _)

/-- An attach environment whose codec-open step fails. -/
def env_open_fail : AttachEnv :=
  { fmt_ctx_alloc := some 1,
    codec := some unconstrained_codec,
    stream_alloc := some 2,
    codec_ctx_alloc := some 3,
    codec_open_ok := false,
    sink_attach_ok := true,
    thread_create := some 4 }

theorem groove_encoder_attach_spec_witness :
    (groove_encoder_attach env_open_fail groove_encoder_create 7).err =
      (attach_failing_step env_open_fail).map attach_error_message ∧
    (groove_encoder_attach env_open_fail groove_encoder_create 7).frees.Perm
      (groove_encoder_attach env_open_fail groove_encoder_create 7).allocs ∧
    (groove_encoder_attach env_open_fail groove_encoder_create 7).enc.codec_ctx = none :=
  ⟨(groove_encoder_attach_spec env_open_fail groove_encoder_create 7 rfl).2.1,
   ((groove_encoder_attach_spec env_open_fail groove_encoder_create 7 rfl).2.2.2 rfl).2.1,
   ((groove_encoder_attach_spec env_open_fail groove_encoder_create 7 rfl).2.2.2 rfl).2.2.1⟩
